import Mathlib

/-!
# hellohpc: the ring exchange demo (hellompi.cpp) and the file round trip demo (hellohdf.cpp)

Shallow embedding of the two programs.

Conventions of the embedding:
* a C++ `int` is 32 bits wide: its value is an `Int` in `[-2^31, 2^31)`, and every
  arithmetic operation on `int` yields the exact result reduced into that range
  (`to_int`, two's complement wrap-around);
* the C++ operator `%` on `int` truncates towards zero: it is `Int.tmod`;
* a cast to the 64-bit unsigned `hsize_t` reduces modulo `2^64` (`to_hsize`);
* an `int` array reached through a pointer is a function `Int → Int` from the element
  offset to the stored value, so that a store outside the intended range is visible;
* a loop `for (int i = 0; i < n; i++)` is a left fold over `int_range n`;
* the MPI and HDF5 libraries are not part of the repository: their calls are modelled by
  the effect the programs rely on (message matching, block transfer) and by the status
  values they return, which are inputs of the embedding.
-/

/-! ## Machine integers -/

/-- The `int` that holds the exact value `x`: `x` reduced modulo `2^32` into
`[-2^31, 2^31)`. -/
def to_int (x : Int) : Int :=
  (x + 2147483648) % 4294967296 - 2147483648

/-- The C++ expression `a + b` on `int`. -/
def int_add (a b : Int) : Int := to_int (a + b)

/-- The C++ expression `a - b` on `int`. -/
def int_sub (a b : Int) : Int := to_int (a - b)

/-- The C++ expression `a * b` on `int`. -/
def int_mul (a b : Int) : Int := to_int (a * b)

/-- The C++ expression `-a` on `int`. -/
def int_neg (a : Int) : Int := to_int (-a)

/-- The C++ expression `static_cast<hsize_t>(x)`: `x` reduced modulo `2^64`. -/
def to_hsize (x : Int) : Int :=
  x % 18446744073709551616

/-! ## Shared control structure -/

/-- The values `0, 1, ..., n-1` taken by the counter of `for (int i = 0; i < n; i++)`. -/
def int_range (n : Int) : List Int :=
  (List.range n.toNat).map Int.ofNat

/-- The loop `for (int i = 0; i < n; i++) s = body(i, s)`. -/
def for_loop {σ : Type} (n : Int) (body : Int → σ → σ) (s : σ) : σ :=
  (int_range n).foldl (fun acc i => body i acc) s

/-- The pairs `(iy, ix)` visited by `for (iy < ny) for (ix < nx)`, in the order of the
visit. -/
def index_pairs (ny nx : Int) : List (Int × Int) :=
  (int_range ny).flatMap (fun iy => (int_range nx).map (fun ix => (iy, ix)))

/-- How a process ends: `return code` from `main`, an `assert` that fails, or a wait that
never completes. -/
inductive Termination where
  | exited (code : Int)
  | aborted
  | blocked
  deriving DecidableEq, Repr

namespace hellompi

/-! ## hellompi.cpp -/

/-- Source: `get_next_rank`, `return (thisrank + 1) % nprocess;`. -/
def get_next_rank (thisrank nprocess : Int) : Int :=
  Int.tmod (int_add thisrank 1) nprocess

/-- Source: `get_prev_rank`, `return (thisrank - 1 + nprocess) % nprocess;`. -/
def get_prev_rank (thisrank nprocess : Int) : Int :=
  Int.tmod (int_add (int_sub thisrank 1) nprocess) nprocess

/-- Source: `create_buffer`, a fresh array of `size` elements, each set to `fillvalue`. -/
def create_buffer (size : Nat) (fillvalue : Int) : List Int :=
  (List.range size).foldl (fun buffer _ => buffer ++ [fillvalue]) []

/-- A message in flight: who sent it, to whom, its tag and its payload. -/
structure Message where
  source : Int
  dest : Int
  tag : Int
  data : List Int
  deriving DecidableEq, Repr

/-- The messages each rank has sent and nobody has received yet, per sender, oldest
first. -/
abbrev Network := Int → List Message

/-- The call `MPI_Isend(buf, count, MPI_INT, dest, tag, MPI_COMM_WORLD, &req)` issued by
rank `source`: the first `count` elements of `buf` are appended to the sender's
outstanding messages. -/
def MPI_Isend (net : Network) (source : Int) (buf : List Int) (count : Nat) (dest tag : Int) :
    Network :=
  Function.update net source (net source ++ [⟨source, dest, tag, buf.take count⟩])

/-- The earliest message of `sent` addressed to `dest` with tag `tag`, and `sent` without
it; `none` when there is no such message. -/
def take_first_match (dest tag : Int) : List Message → Option (Message × List Message)
  | [] => none
  | m :: ms =>
    if m.dest = dest ∧ m.tag = tag then some (m, ms)
    else (take_first_match dest tag ms).map (fun p => (p.1, m :: p.2))

/-- The call `MPI_Irecv(buf, count, MPI_INT, source, tag, MPI_COMM_WORLD, &req)` issued by
rank `dest`, once completed: the earliest-sent, not yet received message that `source`
sent to `dest` with tag `tag` is removed from the network and its payload overwrites the
front of `buf`. `none` when no such message was sent, in which case the request never
completes. -/
def MPI_Irecv (net : Network) (dest : Int) (buf : List Int) (count : Nat) (source tag : Int) :
    Option (Network × List Int) :=
  match take_first_match dest tag (net source) with
  | none => none
  | some (m, rest) =>
    some (Function.update net source rest,
          m.data.take count ++ buf.drop (m.data.take count).length)

/-- Source: the two `MPI_Isend` calls of `test_mpi_sendrecv`, in program order. -/
def post_sends (net : Network) (sendbuf1 sendbuf2 : List Int) (size : Nat)
    (thisrank nprocess : Int) : Network :=
  let nextrank := get_next_rank thisrank nprocess
  let prevrank := get_prev_rank thisrank nprocess
  let net := MPI_Isend net thisrank sendbuf1 size nextrank thisrank
  MPI_Isend net thisrank sendbuf2 size prevrank thisrank

/-- Source: `test_mpi_sendrecv`. `others` holds what the other ranks have sent. The
function posts its two sends, then its two receives, and `MPI_Waitall` returns when both
receives are matched; the result is `(recvbuf1, recvbuf2)`, or `none` when a receive is
never matched (no process of the communicator sends the message it names). -/
def test_mpi_sendrecv (others : Network) (sendbuf1 sendbuf2 recvbuf1 recvbuf2 : List Int)
    (size : Nat) (thisrank nprocess : Int) : Option (List Int × List Int) :=
  let nextrank := get_next_rank thisrank nprocess
  let prevrank := get_prev_rank thisrank nprocess
  let net := post_sends others sendbuf1 sendbuf2 size thisrank nprocess
  match MPI_Irecv net thisrank recvbuf1 size nextrank nextrank with
  | none => none
  | some (net, recvbuf1) =>
    match MPI_Irecv net thisrank recvbuf2 size prevrank prevrank with
    | none => none
    | some (_, recvbuf2) => some (recvbuf1, recvbuf2)

/-- The sends that the `main` of every rank other than `thisrank` posts: rank `s` of
`[0, nprocess)` sends `create_buffer(size, +s)` and `create_buffer(size, -s)`. -/
def other_ranks_sends (size : Nat) (thisrank nprocess : Int) : Network :=
  fun s =>
    if 0 ≤ s ∧ s < nprocess ∧ s ≠ thisrank then
      post_sends (fun _ => []) (create_buffer size s) (create_buffer size (int_neg s)) size s
        nprocess s
    else []

/-- Source: the block of `main` from `create_buffer` to `test_mpi_sendrecv`, on rank
`thisrank` of `nprocess`: the two receive buffers after the exchange. -/
def exchange (thisrank nprocess : Int) : Option (List Int × List Int) :=
  let size : Nat := 4
  let sendbuf1 := create_buffer size thisrank
  let sendbuf2 := create_buffer size (int_neg thisrank)
  let recvbuf1 := create_buffer size 0
  let recvbuf2 := create_buffer size 0
  test_mpi_sendrecv (other_ranks_sends size thisrank nprocess)
    sendbuf1 sendbuf2 recvbuf1 recvbuf2 size thisrank nprocess

/-- Source: the checking loop of `main`: both `assert`s hold for every `i < size`. -/
def asserts_hold (recvbuf1 recvbuf2 : List Int) (size : Nat) (thisrank nprocess : Int) : Bool :=
  (List.range size).all (fun i =>
    decide (recvbuf1.get? i = some (int_neg (get_next_rank thisrank nprocess))) &&
    decide (recvbuf2.get? i = some (get_prev_rank thisrank nprocess)))

/-- Source: `main` of hellompi.cpp on rank `thisrank` of `nprocess`. -/
def main (thisrank nprocess : Int) : Termination :=
  match exchange thisrank nprocess with
  | none => Termination.blocked
  | some (recvbuf1, recvbuf2) =>
    if asserts_hold recvbuf1 recvbuf2 4 thisrank nprocess then Termination.exited 0
    else Termination.aborted

/-- What rank `s` has in flight once every rank of the ring has posted its two sends. -/
def outbox (s P : Int) : List Message :=
  [⟨s, get_next_rank s P, s, List.replicate 4 s⟩,
   ⟨s, get_prev_rank s P, s, List.replicate 4 (int_neg s)⟩]

end hellompi

namespace hellohdf

/-! ## hellohdf.cpp -/

/-- Source: `print_message`: the text reaches standard output on rank 0 only. -/
def print_message (thisrank : Int) (text : String) : List String :=
  if thisrank = 0 then [text] else []

/-- Source: `error_check`: the returned flag, and what is written to `std::cerr`. -/
def error_check (status : Int) (message : String) : Bool × List String :=
  if status < 0 then (false, [message]) else (true, [])

/-- Source: `fill_data`. `thisrank` and `nprocess` are what `MPI_Comm_rank` and
`MPI_Comm_size` return; `data` is the memory behind the pointer before the call. -/
def fill_data (data : Int → Int) (nx ny : Int) (thisrank nprocess : Int) : Int → Int :=
  let nx_global := int_mul nx nprocess
  let ix_start := int_mul nx thisrank
  for_loop ny (fun iy data =>
    for_loop nx (fun ix data =>
      Function.update data (int_add (int_mul iy nx) ix)
        (int_add (int_add (int_mul iy nx_global) ix) ix_start)) data) data

/-- Source: `check_data`. -/
def check_data (data1 data2 : Int → Int) (nx ny : Int) : Bool :=
  let status := true
  for_loop ny (fun iy status =>
    for_loop nx (fun ix status =>
      status && decide (data1 (int_add (int_mul iy nx) ix) = data2 (int_add (int_mul iy nx) ix)))
      status) status

/-- The HDF5 entry points the program calls. -/
inductive H5Fn where
  | H5Pcreate | H5Pset_fapl_mpio | H5Fcreate | H5Fopen | H5Fclose | H5Pclose
  | H5Screate_simple | H5Dcreate | H5Dopen | H5Dget_space | H5Dget_type
  | H5Sselect_hyperslab | H5Pset_dxpl_mpio | H5Dwrite | H5Dread
  | H5Tclose | H5Sclose | H5Dclose
  deriving DecidableEq, Repr

/-- One library call as issued: the entry point and the handles passed to it. -/
structure H5Call where
  fn : H5Fn
  handles : List Int
  deriving DecidableEq, Repr

/-- The state a `check_*` function carries: the accumulator `is_success`, the library
calls issued so far (oldest first) and the lines written to `std::cerr`. -/
structure Check where
  is_success : Bool
  calls : List H5Call
  cerr : List String
  deriving DecidableEq, Repr

/-- Source: the recurring pair of statements
`x = H5...(handles); is_success &= error_check(x, message);`
where `returned` is the value the library call returned, a `herr_t` (an `int`) or a
`hid_t`. The types are declared by `hdf5.h`, which is not among the sources; whatever the
width of `hid_t`, the call converts `x` to the `int` parameter of `error_check`, which
keeps the low 32 bits (`to_int`) and leaves a value in the range of `int` unchanged. -/
def call_and_check (c : Check) (fn : H5Fn) (handles : List Int) (returned : Int)
    (message : String) : Check :=
  let checked := error_check (to_int returned) message
  { is_success := c.is_success && checked.1
    calls := c.calls ++ [⟨fn, handles⟩]
    cerr := c.cerr ++ checked.2 }

/-- Source: `check_create_file`. `ret i` is the value returned by the `i`-th library call
of the function (counted from 0). -/
def check_create_file (ret : Nat → Int) : Check :=
  let c : Check := ⟨true, [], []⟩
  let property := ret 0
  let c := call_and_check c .H5Pcreate [] property "Error creating property list."
  let c := call_and_check c .H5Pset_fapl_mpio [property] (ret 1)
    "Error setting file access property list."
  let file := ret 2
  let c := call_and_check c .H5Fcreate [property] file "Error creating file."
  let c := call_and_check c .H5Fclose [file] (ret 3) "Error closing file."
  let c := call_and_check c .H5Pclose [property] (ret 4) "Error closing property list."
  c

/-- Source: `check_create_dataset`. `ret i` is the value returned by the `i`-th library
call of the function. -/
def check_create_dataset (ret : Nat → Int) : Check :=
  let c : Check := ⟨true, [], []⟩
  let property := ret 0
  let c := call_and_check c .H5Pcreate [] property "Error creating property list."
  let c := call_and_check c .H5Pset_fapl_mpio [property] (ret 1)
    "Error setting file access property list."
  let file := ret 2
  let c := call_and_check c .H5Fopen [property] file "Error opening file."
  let space := ret 3
  let c := call_and_check c .H5Screate_simple [] space "Error creating dataspace."
  let dataset := ret 4
  let c := call_and_check c .H5Dcreate [file, space] dataset "Error creating dataset."
  let c := call_and_check c .H5Dclose [dataset] (ret 5) "Error closing dataset."
  let c := call_and_check c .H5Sclose [space] (ret 6) "Error closing dataspace."
  let c := call_and_check c .H5Fclose [file] (ret 7) "Error closing file."
  let c := call_and_check c .H5Pclose [property] (ret 8) "Error closing property list."
  c

/-- Source: `check_write_dataset`. `ret i` is the value returned by the `i`-th library call
of the function; the file is opened with `H5F_ACC_RDWR`. -/
def check_write_dataset (ret : Nat → Int) : Check :=
  let c : Check := ⟨true, [], []⟩
  let property := ret 0
  let c := call_and_check c .H5Pcreate [] property "Error creating property list."
  let c := call_and_check c .H5Pset_fapl_mpio [property] (ret 1)
    "Error setting file access property list."
  let file := ret 2
  let c := call_and_check c .H5Fopen [property] file "Error opening file."
  let dataset := ret 3
  let c := call_and_check c .H5Dopen [file] dataset "Error opening dataset."
  let dspace := ret 4
  let c := call_and_check c .H5Dget_space [dataset] dspace "Error getting dataspace."
  let mspace := ret 5
  let c := call_and_check c .H5Screate_simple [] mspace "Error creating simple dataspace."
  let dtype := ret 6
  let c := call_and_check c .H5Dget_type [dataset] dtype "Error getting dataset type."
  let proplist := ret 7
  let c := call_and_check c .H5Pcreate [] proplist
    "Error creating dataset transfer property list."
  let c := call_and_check c .H5Sselect_hyperslab [dspace] (ret 8)
    "Error selecting hyperslab for destination."
  let c := call_and_check c .H5Sselect_hyperslab [mspace] (ret 9)
    "Error selecting hyperslab for source."
  let c := call_and_check c .H5Pset_dxpl_mpio [proplist] (ret 10)
    "Error setting dataset transfer property list for collective I/O."
  let c := call_and_check c .H5Dwrite [dataset, dtype, mspace, dspace, proplist] (ret 11)
    "Error writing data."
  let c := call_and_check c .H5Pclose [proplist] (ret 12)
    "Error closing dataset transfer property list."
  let c := call_and_check c .H5Tclose [dtype] (ret 13) "Error closing datatype."
  let c := call_and_check c .H5Sclose [mspace] (ret 14) "Error closing memory dataspace."
  let c := call_and_check c .H5Sclose [dspace] (ret 15) "Error closing dataspace."
  let c := call_and_check c .H5Dclose [dataset] (ret 16) "Error closing dataset."
  let c := call_and_check c .H5Fclose [file] (ret 17) "Error closing file."
  let c := call_and_check c .H5Pclose [property] (ret 18) "Error closing property list."
  c

/-- Source: `check_read_dataset`. `ret i` is the value returned by the `i`-th library call
of the function; the file is opened with `H5F_ACC_RDONLY`. -/
def check_read_dataset (ret : Nat → Int) : Check :=
  let c : Check := ⟨true, [], []⟩
  let property := ret 0
  let c := call_and_check c .H5Pcreate [] property "Error creating property list."
  let c := call_and_check c .H5Pset_fapl_mpio [property] (ret 1)
    "Error setting file access property list."
  let file := ret 2
  let c := call_and_check c .H5Fopen [property] file "Error opening file."
  let dataset := ret 3
  let c := call_and_check c .H5Dopen [file] dataset "Error opening dataset."
  let dspace := ret 4
  let c := call_and_check c .H5Dget_space [dataset] dspace "Error getting dataspace."
  let mspace := ret 5
  let c := call_and_check c .H5Screate_simple [] mspace "Error creating simple dataspace."
  let dtype := ret 6
  let c := call_and_check c .H5Dget_type [dataset] dtype "Error getting dataset type."
  let proplist := ret 7
  let c := call_and_check c .H5Pcreate [] proplist
    "Error creating dataset transfer property list."
  let c := call_and_check c .H5Sselect_hyperslab [dspace] (ret 8)
    "Error selecting hyperslab for destination."
  let c := call_and_check c .H5Sselect_hyperslab [mspace] (ret 9)
    "Error selecting hyperslab for source."
  let c := call_and_check c .H5Pset_dxpl_mpio [proplist] (ret 10)
    "Error setting dataset transfer property list for collective I/O."
  let c := call_and_check c .H5Dread [dataset, dtype, mspace, dspace, proplist] (ret 11)
    "Error reading data."
  let c := call_and_check c .H5Pclose [proplist] (ret 12)
    "Error closing dataset transfer property list."
  let c := call_and_check c .H5Tclose [dtype] (ret 13) "Error closing datatype."
  let c := call_and_check c .H5Sclose [mspace] (ret 14) "Error closing memory dataspace."
  let c := call_and_check c .H5Sclose [dspace] (ret 15) "Error closing dataspace."
  let c := call_and_check c .H5Dclose [dataset] (ret 16) "Error closing dataset."
  let c := call_and_check c .H5Fclose [file] (ret 17) "Error closing file."
  let c := call_and_check c .H5Pclose [property] (ret 18) "Error closing property list."
  c

/-- The four index arrays `main` passes to the transfer functions, each holding
the entries `[0]` and `[1]`. -/
structure Shapes where
  ldims : Int × Int
  gdims : Int × Int
  loffset : Int × Int
  goffset : Int × Int
  deriving DecidableEq, Repr

/-- Source: the assignments to `ldims`, `gdims`, `loffset` and `goffset` in `main`: the
products are formed in `int` and then cast to `hsize_t`. -/
def main_shapes (nx ny : Int) (thisrank nprocess : Int) : Shapes :=
  { ldims := (to_hsize ny, to_hsize nx)
    gdims := (to_hsize ny, to_hsize (int_mul nx nprocess))
    loffset := (0, 0)
    goffset := (0, to_hsize (int_mul nx thisrank)) }

/-- The cell `(row, col)` lies in the block described by `sh`: inside the hyperslab of extent
`ldims` at `goffset`. -/
def in_block (sh : Shapes) (row col : Int) : Prop :=
  sh.goffset.1 ≤ row ∧ row < sh.goffset.1 + sh.ldims.1 ∧
  sh.goffset.2 ≤ col ∧ col < sh.goffset.2 + sh.ldims.2

instance (sh : Shapes) (row col : Int) : Decidable (in_block sh row col) :=
  inferInstanceAs (Decidable (_ ∧ _ ∧ _ ∧ _))

/-- The block of `sh` lies inside the global extent `gdims`. -/
def block_inside (sh : Shapes) : Prop :=
  0 ≤ sh.goffset.1 ∧ sh.goffset.1 + sh.ldims.1 ≤ sh.gdims.1 ∧
  0 ≤ sh.goffset.2 ∧ sh.goffset.2 + sh.ldims.2 ≤ sh.gdims.2

instance (sh : Shapes) : Decidable (block_inside sh) :=
  inferInstanceAs (Decidable (_ ∧ _ ∧ _ ∧ _))

/-- What the HDF5 library does in one run of `main`: the values returned by the calls of
each of the four `check_*` functions, and the contents of `data2` when
`check_read_dataset` returns. -/
structure Library where
  create_file : Nat → Int
  create_dataset : Nat → Int
  write_dataset : Nat → Int
  read_dataset : Nat → Int
  data2 : Int → Int

/-- What one run of `main` does: the lines on standard output and on `std::cerr`, whether
`MPI_Finalize` was reached, and how the process ended. -/
structure Run where
  stdout : List String
  cerr : List String
  finalized : Bool
  termination : Termination
  deriving DecidableEq, Repr

/-- Source: `main` of hellohdf.cpp on rank `thisrank` of `nprocess`; `stack` is the memory
of `data1` before `fill_data` runs. -/
def main (thisrank nprocess : Int) (lib : Library) (stack : Int → Int) : Run :=
  let filename := "hellohdf.h5"
  let dataname := "data"
  let nx : Int := 4
  let ny : Int := 4
  let data1 := fill_data stack nx ny thisrank nprocess
  let out := print_message thisrank ("creating file " ++ filename ++ " ... ")
  let create_file := check_create_file lib.create_file
  let out := out ++
    (if create_file.is_success = true then print_message thisrank "done\n"
     else print_message thisrank "failed\n")
  let out := out ++ print_message thisrank ("creating dataset " ++ dataname ++ " ... ")
  let create_dataset := check_create_dataset lib.create_dataset
  let out := out ++
    (if create_dataset.is_success = true then print_message thisrank "done\n"
     else print_message thisrank "failed\n")
  let out := out ++ print_message thisrank ("writing dataset " ++ dataname ++ " ... ")
  let write_dataset := check_write_dataset lib.write_dataset
  let out := out ++
    (if write_dataset.is_success = true then print_message thisrank "done\n"
     else print_message thisrank "failed\n")
  let out := out ++ print_message thisrank ("reading dataset " ++ dataname ++ " ... ")
  let read_dataset := check_read_dataset lib.read_dataset
  let data2 := lib.data2
  let out := out ++
    (if read_dataset.is_success = true then
      print_message thisrank "done\n" ++ print_message thisrank "checking data ... " ++
        (if check_data data1 data2 nx ny = true then print_message thisrank "succeeded\n"
         else print_message thisrank "failed\n")
     else print_message thisrank "failed\n")
  -- MPI_Finalize(); return 0;
  { stdout := out
    cerr := create_file.cerr ++ create_dataset.cerr ++ write_dataset.cerr ++ read_dataset.cerr
    finalized := true
    termination := Termination.exited 0 }

end hellohdf


/-! ## Machine integers: facts -/

theorem to_int_of_range (x : Int) (h1 : -2147483648 ≤ x) (h2 : x ≤ 2147483647) :
    to_int x = x := by
  unfold to_int; omega

theorem to_int_range (x : Int) : -2147483648 ≤ to_int x ∧ to_int x ≤ 2147483647 := by
  unfold to_int; omega

theorem to_int_congr (a b : Int) (h : a % 4294967296 = b % 4294967296) :
    to_int a = to_int b := by
  unfold to_int; omega

theorem to_int_emod (a : Int) : to_int a % 4294967296 = a % 4294967296 := by
  unfold to_int; omega

theorem to_hsize_of_range (x : Int) (h1 : 0 ≤ x) (h2 : x ≤ 2147483647) : to_hsize x = x := by
  unfold to_hsize; omega

/-! ## Theorems on hellompi.cpp -/

namespace hellompi

theorem get_next_rank_eq (P r : Int) (h0 : 0 ≤ r) (hr : r < P) (hmax : P ≤ 2147483647) :
    get_next_rank r P = if r + 1 = P then 0 else r + 1 := by
  unfold get_next_rank int_add
  rw [to_int_of_range (r + 1) (by omega) (by omega), Int.tmod_eq_emod (by omega) (by omega)]
  split
  · next h => rw [h, Int.emod_self]
  · next h => exact Int.emod_eq_of_lt (a := r + 1) (b := P) (by omega) (by omega)

theorem get_prev_rank_eq (P r : Int) (h0 : 0 ≤ r) (hr : r < P)
    (hfit : r - 1 + P ≤ 2147483647) :
    get_prev_rank r P = if r = 0 then P - 1 else r - 1 := by
  unfold get_prev_rank int_add int_sub
  rw [to_int_of_range (r - 1) (by omega) (by omega),
    to_int_of_range (r - 1 + P) (by omega) (by omega),
    Int.tmod_eq_emod (by omega) (by omega)]
  split
  · next h =>
    have e : r - 1 + P = P - 1 := by omega
    rw [e]
    exact Int.emod_eq_of_lt (a := P - 1) (b := P) (by omega) (by omega)
  · next h =>
    rw [Int.add_emod_self]
    exact Int.emod_eq_of_lt (a := r - 1) (b := P) (by omega) (by omega)

theorem get_next_rank_emod (P r : Int) (h0 : 0 ≤ r) (hr : r < P) (hmax : P ≤ 2147483647) :
    get_next_rank r P = (r + 1) % P := by
  unfold get_next_rank int_add
  rw [to_int_of_range (r + 1) (by omega) (by omega)]
  exact Int.tmod_eq_emod (by omega) (by omega)

theorem get_prev_rank_emod (P r : Int) (h0 : 0 ≤ r) (hr : r < P)
    (hfit : r - 1 + P ≤ 2147483647) :
    get_prev_rank r P = (r - 1 + P) % P := by
  unfold get_prev_rank int_add int_sub
  rw [to_int_of_range (r - 1) (by omega) (by omega),
    to_int_of_range (r - 1 + P) (by omega) (by omega)]
  exact Int.tmod_eq_emod (by omega) (by omega)

theorem create_buffer_eq (size : Nat) (v : Int) :
    create_buffer size v = List.replicate size v := by
  unfold create_buffer
  induction size with
  | zero => rfl
  | succ n ih =>
    rw [List.range_succ, List.foldl_append, ih]
    simp [List.replicate_succ']

theorem network_after_sends (P r s : Int) (hs0 : 0 ≤ s) (hs : s < P) :
    post_sends (other_ranks_sends 4 r P) (create_buffer 4 r) (create_buffer 4 (int_neg r)) 4 r
      P s = outbox s P := by
  by_cases h : s = r
  · subst h
    simp [post_sends, MPI_Isend, other_ranks_sends, outbox, create_buffer_eq]
  · have h2 : r ≠ s := fun e => h e.symm
    simp [post_sends, MPI_Isend, other_ranks_sends, outbox, create_buffer_eq, h, h2, hs0, hs,
      Function.update]

theorem exchange_of_three_le (P r : Int) (hP : 3 ≤ P) (hmax : P ≤ 1073741824) (h0 : 0 ≤ r)
    (hr : r < P) :
    exchange r P = some (List.replicate 4 (int_neg (get_next_rank r P)),
                         List.replicate 4 (get_prev_rank r P)) := by
  have hn := get_next_rank_eq P r h0 hr (by omega)
  have hp := get_prev_rank_eq P r h0 hr (by omega)
  have hn0 : 0 ≤ get_next_rank r P ∧ get_next_rank r P < P := by rw [hn]; split <;> omega
  have hp0 : 0 ≤ get_prev_rank r P ∧ get_prev_rank r P < P := by rw [hp]; split <;> omega
  have hnn : get_next_rank (get_next_rank r P) P ≠ r := by
    rw [get_next_rank_eq P _ hn0.1 hn0.2 (by omega), hn]; split <;> split <;> omega
  have hpn : get_prev_rank (get_next_rank r P) P = r := by
    rw [get_prev_rank_eq P _ hn0.1 hn0.2 (by omega), hn]; split <;> split <;> omega
  have hnp : get_next_rank (get_prev_rank r P) P = r := by
    rw [get_next_rank_eq P _ hp0.1 hp0.2 (by omega), hp]; split <;> split <;> omega
  have hne : get_prev_rank r P ≠ get_next_rank r P := by
    rw [hn, hp]; split <;> split <;> omega
  have net_n := network_after_sends P r (get_next_rank r P) hn0.1 hn0.2
  have net_p := network_after_sends P r (get_prev_rank r P) hp0.1 hp0.2
  have m1 : take_first_match r (get_next_rank r P) (outbox (get_next_rank r P) P)
      = some (⟨get_next_rank r P, r, get_next_rank r P,
                List.replicate 4 (int_neg (get_next_rank r P))⟩,
              [⟨get_next_rank r P, get_next_rank (get_next_rank r P) P, get_next_rank r P,
                List.replicate 4 (get_next_rank r P)⟩]) := by
    simp [take_first_match, outbox, hnn, hpn]
  have m2 : take_first_match r (get_prev_rank r P) (outbox (get_prev_rank r P) P)
      = some (⟨get_prev_rank r P, r, get_prev_rank r P, List.replicate 4 (get_prev_rank r P)⟩,
              [⟨get_prev_rank r P, get_prev_rank (get_prev_rank r P) P, get_prev_rank r P,
                List.replicate 4 (int_neg (get_prev_rank r P))⟩]) := by
    simp [take_first_match, outbox, hnp]
  unfold exchange test_mpi_sendrecv
  simp only [MPI_Irecv, net_n, m1, Function.update_noteq hne, net_p, m2]
  simp [create_buffer_eq]

/-- C3 fails as stated: in a ring of `P = 2^30 + 1` the expression
`thisrank - 1 + nprocess` of rank `r = 2^30` is `2^31`, which no `int` holds; the stored
value is `-2^31` and `get_prev_rank` returns `-1073741823`, which is outside `[0,P)` and
is not the residue `(r-1+P) mod P = 1073741823`. -/
theorem C3_prev_rank_overflows :
    (1 : Int) ≤ 1073741825 ∧ (0 : Int) ≤ 1073741824 ∧ (1073741824 : Int) < 1073741825 ∧
    get_prev_rank 1073741824 1073741825 = -1073741823 ∧
    ¬ (0 ≤ get_prev_rank 1073741824 1073741825) ∧
    get_prev_rank 1073741824 1073741825 ≠ (1073741824 - 1 + 1073741825) % 1073741825 := by
  decide

/-- C3 as amended: for every ring size `P >= 1` (an `int`) and rank `r` in `[0,P)` for
which `thisrank - 1 + nprocess` fits in `int` (`r - 1 + P <= 2^31 - 1`),
`get_next_rank` and `get_prev_rank` lie in `[0,P)`, equal the non-negative residues
`(r+1) mod P` and `(r-1+P) mod P`, wrap at the ring boundary (`next(P-1) = 0`,
`prev(0) = P-1`), and are both `0` when `P = 1`. -/
theorem C3_neighbour_values (P r : Int) (hP : 1 ≤ P) (hmax : P ≤ 2147483647) (h0 : 0 ≤ r)
    (hr : r < P) (hfit : r - 1 + P ≤ 2147483647) :
    (0 ≤ get_next_rank r P ∧ get_next_rank r P < P) ∧
    (0 ≤ get_prev_rank r P ∧ get_prev_rank r P < P) ∧
    get_next_rank r P = (r + 1) % P ∧
    get_prev_rank r P = (r - 1 + P) % P ∧
    get_next_rank (P - 1) P = 0 ∧
    get_prev_rank 0 P = P - 1 ∧
    (P = 1 → get_next_rank r P = 0 ∧ get_prev_rank r P = 0) := by
  have hn := get_next_rank_eq P r h0 hr hmax
  have hp := get_prev_rank_eq P r h0 hr hfit
  have hn1 := get_next_rank_eq P (P - 1) (by omega) (by omega) hmax
  have hp0 := get_prev_rank_eq P 0 (by omega) (by omega) (by omega)
  refine ⟨?_, ?_, ?_, ?_, ?_, ?_, ?_⟩
  · rw [hn]; split <;> omega
  · rw [hp]; split <;> omega
  · exact get_next_rank_emod P r h0 hr hmax
  · exact get_prev_rank_emod P r h0 hr hfit
  · rw [hn1]; simp
  · rw [hp0]; simp
  · intro h1
    rw [hn, hp]
    constructor <;> split <;> omega

/-- Witness of the amended C3 at `P = 4`, `r = 3` (the last rank of a ring of four). -/
theorem C3_neighbour_values_witness :
    (0 ≤ get_next_rank 3 4 ∧ get_next_rank 3 4 < 4) ∧
    (0 ≤ get_prev_rank 3 4 ∧ get_prev_rank 3 4 < 4) ∧
    get_next_rank 3 4 = (3 + 1) % 4 ∧
    get_prev_rank 3 4 = (3 - 1 + 4) % 4 ∧
    get_next_rank (4 - 1) 4 = 0 ∧
    get_prev_rank 0 4 = 4 - 1 ∧
    ((4 : Int) = 1 → get_next_rank 3 4 = 0 ∧ get_prev_rank 3 4 = 0) :=
  C3_neighbour_values 4 3 (by decide) (by decide) (by decide) (by decide) (by decide)

/-- C4 fails as stated: in a ring of `P = 2^30 + 1`, `get_prev_rank` of rank `2^30` is
`-1073741823` (the sum `thisrank - 1 + nprocess` does not fit in `int`), so
`next(prev(2^30)) = -1073741822` and `prev(next(2^30 - 1)) = -1073741823`: neither round
trip returns the rank, and `get_prev_rank` does not map `[0,P)` into itself. -/
theorem C4_round_trip_overflows :
    get_next_rank (get_prev_rank 1073741824 1073741825) 1073741825 = -1073741822 ∧
    get_prev_rank (get_next_rank 1073741823 1073741825) 1073741825 = -1073741823 ∧
    ¬ Set.BijOn (fun r => get_prev_rank r 1073741825) (Set.Ico 0 1073741825)
        (Set.Ico 0 1073741825) := by
  refine ⟨by decide, by decide, ?_⟩
  intro h
  have hm := h.1 (show (1073741824 : Int) ∈ Set.Ico 0 1073741825 from ⟨by decide, by decide⟩)
  have hv : get_prev_rank 1073741824 1073741825 = -1073741823 := by decide
  simp only [hv, Set.mem_Ico] at hm
  omega

/-- C4 as amended: for every ring size `P` with `1 <= P <= 2^30` (so that
`thisrank - 1 + nprocess` fits in `int` on every rank), `get_prev_rank` undoes
`get_next_rank` and `get_next_rank` undoes `get_prev_rank` on every rank of `[0,P)`, and
each of the two functions is a bijection of `[0,P)` onto itself. -/
theorem C4_neighbours_mutual_inverses (P : Int) (hP : 1 ≤ P) (hmax : P ≤ 1073741824) :
    (∀ r : Int, 0 ≤ r → r < P →
      get_prev_rank (get_next_rank r P) P = r ∧ get_next_rank (get_prev_rank r P) P = r) ∧
    Set.BijOn (fun r => get_next_rank r P) (Set.Ico 0 P) (Set.Ico 0 P) ∧
    Set.BijOn (fun r => get_prev_rank r P) (Set.Ico 0 P) (Set.Ico 0 P) := by
  have hnr : ∀ r : Int, 0 ≤ r → r < P → 0 ≤ get_next_rank r P ∧ get_next_rank r P < P := by
    intro r h0 hr
    rw [get_next_rank_eq P r h0 hr (by omega)]; split <;> omega
  have hpr : ∀ r : Int, 0 ≤ r → r < P → 0 ≤ get_prev_rank r P ∧ get_prev_rank r P < P := by
    intro r h0 hr
    rw [get_prev_rank_eq P r h0 hr (by omega)]; split <;> omega
  have hpn : ∀ r : Int, 0 ≤ r → r < P → get_prev_rank (get_next_rank r P) P = r := by
    intro r h0 hr
    rw [get_prev_rank_eq P _ (hnr r h0 hr).1 (hnr r h0 hr).2 (by have := hnr r h0 hr; omega),
      get_next_rank_eq P r h0 hr (by omega)]
    split <;> split <;> omega
  have hnp : ∀ r : Int, 0 ≤ r → r < P → get_next_rank (get_prev_rank r P) P = r := by
    intro r h0 hr
    rw [get_next_rank_eq P _ (hpr r h0 hr).1 (hpr r h0 hr).2 (by omega),
      get_prev_rank_eq P r h0 hr (by omega)]
    split <;> split <;> omega
  refine ⟨fun r h0 hr => ⟨hpn r h0 hr, hnp r h0 hr⟩, ?_, ?_⟩
  · refine ⟨fun r hr => hnr r hr.1 hr.2, ?_, ?_⟩
    · intro a ha b hb hab
      have := congrArg (fun x => get_prev_rank x P) hab
      simpa [hpn a ha.1 ha.2, hpn b hb.1 hb.2] using this
    · intro b hb
      exact ⟨get_prev_rank b P, hpr b hb.1 hb.2, hnp b hb.1 hb.2⟩
  · refine ⟨fun r hr => hpr r hr.1 hr.2, ?_, ?_⟩
    · intro a ha b hb hab
      have := congrArg (fun x => get_next_rank x P) hab
      simpa [hnp a ha.1 ha.2, hnp b hb.1 hb.2] using this
    · intro b hb
      exact ⟨get_next_rank b P, hnr b hb.1 hb.2, hpn b hb.1 hb.2⟩

/-- Witness of the amended C4 at `P = 5`: the round trips through rank `4` (the ring
boundary). -/
theorem C4_neighbours_mutual_inverses_witness :
    (1 : Int) ≤ 5 ∧ (5 : Int) ≤ 1073741824 ∧
    get_prev_rank (get_next_rank 4 5) 5 = 4 ∧ get_next_rank (get_prev_rank 4 5) 5 = 4 :=
  ⟨by decide, by decide,
    (C4_neighbours_mutual_inverses 5 (by decide) (by decide)).1 4 (by decide) (by decide)⟩

/-- C7 fails as stated: in a ring of `P = 2^30 + 1 >= 3`, rank `r = 2^30` computes the
predecessor `-1073741823` (the sum `thisrank - 1 + nprocess` does not fit in `int`); its
second send and second receive name a rank no process has, and the exchange does not
deliver the two buffers the claim states. -/
theorem C7_ring_exchange_overflows :
    ((1073741825 : Int) = 1 ∨ (3 : Int) ≤ 1073741825) ∧
    (0 : Int) ≤ 1073741824 ∧ (1073741824 : Int) < 1073741825 ∧
    get_prev_rank 1073741824 1073741825 = -1073741823 ∧
    exchange 1073741824 1073741825 ≠
      some (List.replicate 4 (-((1073741824 + 1) % 1073741825)),
            List.replicate 4 ((1073741824 - 1 + 1073741825) % 1073741825)) := by
  decide

/-- C7 as amended: under the matching rule (a receive for a source and a tag gets the
earliest-sent unmatched message of that source with that tag), for every ring size `P`
with `P = 1` or `3 <= P <= 2^30` (so that `thisrank - 1 + nprocess` fits in `int` on
every rank) and every rank `r` in `[0,P)` the exchange completes, `recvbuf1` is 4 copies
of `-((r+1) mod P)`, `recvbuf2` is 4 copies of `(r-1+P) mod P`, and no assertion of `main`
fires. -/
theorem C7_ring_exchange_tested_sizes (P r : Int) (hP : P = 1 ∨ 3 ≤ P)
    (hmax : P ≤ 1073741824) (h0 : 0 ≤ r) (hr : r < P) :
    exchange r P = some (List.replicate 4 (-((r + 1) % P)), List.replicate 4 ((r - 1 + P) % P)) ∧
    main r P = Termination.exited 0 := by
  have en : get_next_rank r P = (r + 1) % P := get_next_rank_emod P r h0 hr (by omega)
  have ep : get_prev_rank r P = (r - 1 + P) % P := get_prev_rank_emod P r h0 hr (by omega)
  have hn0 : 0 ≤ get_next_rank r P ∧ get_next_rank r P < P := by
    rw [get_next_rank_eq P r h0 hr (by omega)]; split <;> omega
  have eneg : int_neg (get_next_rank r P) = -get_next_rank r P :=
    to_int_of_range _ (by omega) (by omega)
  have hx : exchange r P = some (List.replicate 4 (int_neg (get_next_rank r P)),
      List.replicate 4 (get_prev_rank r P)) := by
    rcases hP with h1 | h3
    · subst h1
      have hr0 : r = 0 := by omega
      subst hr0
      decide
    · exact exchange_of_three_le P r h3 hmax h0 hr
  have ha : asserts_hold (List.replicate 4 (int_neg (get_next_rank r P)))
      (List.replicate 4 (get_prev_rank r P)) 4 r P = true := by
    simp [asserts_hold, List.range_succ, List.replicate]
  refine ⟨by rw [hx, eneg, en, ep], ?_⟩
  unfold main
  rw [hx]
  simp only [ha, if_true]

/-- Witness of the amended C7: in a ring of 4, rank 2 receives `-3` four times in
`recvbuf1` and `+1` four times in `recvbuf2`; in a ring of 1 both buffers hold four
zeros. -/
theorem C7_ring_exchange_tested_sizes_witness :
    (exchange 2 4 = some ([-3, -3, -3, -3], [1, 1, 1, 1]) ∧ main 2 4 = Termination.exited 0) ∧
    (exchange 0 1 = some ([0, 0, 0, 0], [0, 0, 0, 0]) ∧ main 0 1 = Termination.exited 0) :=
  ⟨C7_ring_exchange_tested_sizes 4 2 (Or.inr (by decide)) (by decide) (by decide) (by decide),
   C7_ring_exchange_tested_sizes 1 0 (Or.inl rfl) (by decide) (by decide) (by decide)⟩

/-- C1 at the failing input: in a ring of 2, rank 0 finds `+1` in every element of
`recvbuf1` where `main` asserts `-get_next_rank(0,2) = -1`, and `-1` in every element of
`recvbuf2` where `main` asserts `+get_prev_rank(0,2) = +1`; the first assertion fires and
the process aborts. -/
theorem C1_ring_of_two_aborts :
    exchange 0 2 = some ([1, 1, 1, 1], [-1, -1, -1, -1]) ∧
    -get_next_rank 0 2 = -1 ∧ get_prev_rank 0 2 = 1 ∧
    main 0 2 = Termination.aborted := by
  decide

end hellompi

/-! ## Loops that store into memory -/

theorem mem_int_range (n i : Int) : i ∈ int_range n ↔ 0 ≤ i ∧ i < n := by
  unfold int_range
  simp only [List.mem_map, List.mem_range]
  constructor
  · rintro ⟨k, hk, rfl⟩
    simp only [Int.ofNat_eq_coe]
    omega
  · rintro ⟨h0, hn⟩
    exact ⟨i.toNat, by omega, by simp [Int.toNat_of_nonneg h0]⟩

theorem mem_index_pairs (ny nx a b : Int) :
    (a, b) ∈ index_pairs ny nx ↔ (0 ≤ a ∧ a < ny) ∧ (0 ≤ b ∧ b < nx) := by
  unfold index_pairs
  simp only [List.mem_flatMap, List.mem_map, mem_int_range, Prod.mk.injEq]
  constructor
  · rintro ⟨iy, hy, ix, hx, rfl, rfl⟩
    exact ⟨hy, hx⟩
  · rintro ⟨hy, hx⟩
    exact ⟨a, hy, b, hx, rfl, rfl⟩

theorem nested_loop_eq_foldl {σ : Type} (ny nx : Int) (f : Int → Int → σ → σ) (s : σ) :
    for_loop ny (fun iy s => for_loop nx (fun ix s => f iy ix s) s) s
      = (index_pairs ny nx).foldl (fun s p => f p.1 p.2 s) s := by
  unfold for_loop index_pairs
  generalize int_range ny = rows
  induction rows generalizing s with
  | nil => rfl
  | cons iy rows ih =>
    simp only [List.foldl_cons, List.flatMap_cons, List.foldl_append, List.foldl_map]
    exact ih _

theorem foldl_store_of_not_mem {ι κ : Type} [DecidableEq κ] (l : List ι) (key : ι → κ)
    (val : ι → Int) (m : κ → Int) (k : κ) (h : ∀ i ∈ l, key i ≠ k) :
    (l.foldl (fun m i => Function.update m (key i) (val i)) m) k = m k := by
  induction l generalizing m with
  | nil => rfl
  | cons i l ih =>
    rw [List.foldl_cons, ih _ (fun j hj => h j (List.mem_cons_of_mem _ hj))]
    exact Function.update_noteq (fun e => h i (List.mem_cons_self _ _) e.symm) _ _

theorem foldl_store_of_mem {ι κ : Type} [DecidableEq κ] (l : List ι) (key : ι → κ)
    (val : ι → Int) (m : κ → Int)
    (hc : ∀ i ∈ l, ∀ j ∈ l, key i = key j → val i = val j) :
    ∀ i ∈ l, (l.foldl (fun m i => Function.update m (key i) (val i)) m) (key i) = val i := by
  induction l generalizing m with
  | nil => intro i hi; cases hi
  | cons a l ih =>
    intro i hi
    rw [List.foldl_cons]
    have hc2 : ∀ i ∈ l, ∀ j ∈ l, key i = key j → val i = val j :=
      fun i hi j hj => hc i (List.mem_cons_of_mem _ hi) j (List.mem_cons_of_mem _ hj)
    by_cases hk : ∃ j ∈ l, key j = key i
    · obtain ⟨j, hj, hjk⟩ := hk
      rw [← hjk, ih _ hc2 j hj]
      exact hc j (List.mem_cons_of_mem _ hj) i hi hjk
    · have hl : i ∉ l := fun h => hk ⟨i, h, rfl⟩
      have hia : i = a := by
        rcases List.mem_cons.1 hi with h | h
        · exact h
        · exact absurd h hl
      subst hia
      rw [foldl_store_of_not_mem l key val _ (key i) (fun j hj e => hk ⟨j, hj, e⟩)]
      exact Function.update_same _ _ _

/-- A doubly nested loop that stores `val iy ix` at `key iy ix`: what it leaves at the
keys it visits, and that it leaves every other location alone. -/
theorem nested_store_spec {κ : Type} [DecidableEq κ] (ny nx : Int) (key : Int → Int → κ)
    (val : Int → Int → Int) (m : κ → Int)
    (hc : ∀ a b a' b' : Int, 0 ≤ a → a < ny → 0 ≤ b → b < nx → 0 ≤ a' → a' < ny → 0 ≤ b' →
      b' < nx → key a b = key a' b' → val a b = val a' b') :
    (∀ a b : Int, 0 ≤ a → a < ny → 0 ≤ b → b < nx →
      for_loop ny (fun iy m => for_loop nx (fun ix m =>
        Function.update m (key iy ix) (val iy ix)) m) m (key a b) = val a b) ∧
    (∀ k : κ, (∀ a b : Int, 0 ≤ a → a < ny → 0 ≤ b → b < nx → key a b ≠ k) →
      for_loop ny (fun iy m => for_loop nx (fun ix m =>
        Function.update m (key iy ix) (val iy ix)) m) m k = m k) := by
  rw [nested_loop_eq_foldl ny nx (fun iy ix m => Function.update m (key iy ix) (val iy ix)) m]
  constructor
  · intro a b ha0 ha hb0 hb
    refine foldl_store_of_mem (index_pairs ny nx) (fun p => key p.1 p.2) (fun p => val p.1 p.2) m
      ?_ (a, b) ((mem_index_pairs ny nx a b).2 ⟨⟨ha0, ha⟩, ⟨hb0, hb⟩⟩)
    rintro ⟨i1, i2⟩ hi ⟨j1, j2⟩ hj e
    obtain ⟨⟨h1, h2⟩, ⟨h3, h4⟩⟩ := (mem_index_pairs ny nx i1 i2).1 hi
    obtain ⟨⟨h5, h6⟩, ⟨h7, h8⟩⟩ := (mem_index_pairs ny nx j1 j2).1 hj
    exact hc i1 i2 j1 j2 h1 h2 h3 h4 h5 h6 h7 h8 e
  · intro k hk
    refine foldl_store_of_not_mem (index_pairs ny nx) (fun p => key p.1 p.2)
      (fun p => val p.1 p.2) m k ?_
    rintro ⟨i1, i2⟩ hi
    obtain ⟨⟨h1, h2⟩, ⟨h3, h4⟩⟩ := (mem_index_pairs ny nx i1 i2).1 hi
    exact hk i1 i2 h1 h2 h3 h4

/-- Two cells of a row-major array with rows of length `nx` have the same offset only when
they are the same cell. -/
theorem row_major_inj (nx a b a' b' : Int) (hb0 : 0 ≤ b) (hb : b < nx) (hb0' : 0 ≤ b')
    (hb' : b' < nx) (e : a * nx + b = a' * nx + b') : a = a' ∧ b = b' := by
  have ha : a = a' := by
    rcases lt_trichotomy a a' with h | h | h
    · exfalso
      have : (a' - a - 1) * nx ≥ 0 := mul_nonneg (by omega) (by omega)
      nlinarith
    · exact h
    · exfalso
      have : (a - a' - 1) * nx ≥ 0 := mul_nonneg (by omega) (by omega)
      nlinarith
  subst ha
  exact ⟨rfl, by omega⟩

/-- Every offset below `nx * ny` is the offset of a cell `(a, b)` with `a < ny`, `b < nx`. -/
theorem row_major_surj (nx ny k : Int) (hk0 : 0 ≤ k) (hk : k < nx * ny) (hnx : 0 ≤ nx) :
    ∃ a b : Int, (0 ≤ a ∧ a < ny) ∧ (0 ≤ b ∧ b < nx) ∧ k = a * nx + b := by
  have hpos : 0 < nx := by
    rcases hnx.lt_or_eq with h | h
    · exact h
    · subst h; simp at hk; omega
  refine ⟨k / nx, k % nx, ⟨Int.ediv_nonneg hk0 hnx, ?_⟩,
    ⟨Int.emod_nonneg _ (by omega), Int.emod_lt_of_pos _ hpos⟩, ?_⟩
  · exact Int.ediv_lt_of_lt_mul hpos (by rw [mul_comm] at hk; exact hk)
  · have := Int.emod_add_ediv k nx
    linarith [mul_comm nx (k / nx)]

/-- The offset of a cell `(a, b)` with `a < ny`, `b < nx` lies below `nx * ny`. -/
theorem row_major_lt (nx ny a b : Int) (ha0 : 0 ≤ a) (ha : a < ny) (hb0 : 0 ≤ b) (hb : b < nx) :
    0 ≤ a * nx + b ∧ a * nx + b < nx * ny := by
  have h1 : 0 ≤ a * nx := mul_nonneg ha0 (by omega)
  have h2 : (ny - a - 1) * nx ≥ 0 := mul_nonneg (by omega) (by omega)
  constructor
  · omega
  · nlinarith

/-! ## Theorems on hellohdf.cpp -/

namespace hellohdf

/-- The offset `iy * nx + ix` as the code computes it, when every offset of the buffer
fits in `int`. -/
theorem index_eq (nx ny a b : Int) (hfit : nx * ny ≤ 2147483648) (ha0 : 0 ≤ a) (ha : a < ny)
    (hb0 : 0 ≤ b) (hb : b < nx) : int_add (int_mul a nx) b = a * nx + b := by
  have hk := row_major_lt nx ny a b ha0 ha hb0 hb
  have h1 : 0 ≤ a * nx := mul_nonneg ha0 (by omega)
  unfold int_add int_mul
  rw [to_int_of_range (a * nx) (by omega) (by omega)]
  exact to_int_of_range _ (by omega) (by omega)

/-- The stored value as the code computes it: the exact value reduced to an `int`. -/
theorem fill_value_eq (nx P r iy ix : Int) :
    int_add (int_add (int_mul iy (int_mul nx P)) ix) (int_mul nx r) =
      to_int (iy * (nx * P) + ix + nx * r) := by
  unfold int_add int_mul
  apply to_int_congr
  have h1 : (iy * to_int (nx * P)) % 4294967296 = (iy * (nx * P)) % 4294967296 := by
    rw [Int.mul_emod, to_int_emod, ← Int.mul_emod]
  have h2 := to_int_emod (iy * to_int (nx * P))
  have h3 := to_int_emod (to_int (iy * to_int (nx * P)) + ix)
  have h4 := to_int_emod (nx * r)
  generalize iy * to_int (nx * P) = A at *
  generalize iy * (nx * P) = B at *
  generalize nx * r = C at *
  omega

/-- The global row-major index of a cell of rank `r` lies in `[0, nx*ny*P)`. -/
theorem global_index_lt (nx ny P r a b : Int) (h0 : 0 ≤ r) (hr : r < P) (ha0 : 0 ≤ a)
    (ha : a < ny) (hb0 : 0 ≤ b) (hb : b < nx) :
    0 ≤ a * (nx * P) + b + nx * r ∧ a * (nx * P) + b + nx * r < nx * ny * P := by
  have hnx : 0 ≤ nx := by omega
  have hP : 0 ≤ P := by omega
  have h1 : 0 ≤ nx * P := mul_nonneg hnx hP
  have h2 : 0 ≤ a * (nx * P) := mul_nonneg ha0 h1
  have h3 : 0 ≤ nx * r := mul_nonneg hnx h0
  have h4 : 0 ≤ (ny - 1 - a) * (nx * P) := mul_nonneg (by omega) h1
  have h5 : 0 ≤ nx * (P - 1 - r) := mul_nonneg hnx (by omega)
  constructor
  · omega
  · nlinarith

theorem fill_data_spec (data : Int → Int) (nx ny r P : Int) (hP : 1 ≤ P) (h0 : 0 ≤ r)
    (hr : r < P) (hfit : nx * ny * P ≤ 2147483648) :
    (∀ iy ix : Int, 0 ≤ iy → iy < ny → 0 ≤ ix → ix < nx →
      fill_data data nx ny r P (iy * nx + ix) = iy * (nx * P) + ix + nx * r) ∧
    (∀ k : Int, ¬ (0 ≤ k ∧ k < nx * ny) → fill_data data nx ny r P k = data k) := by
  have hcells : ∀ a b : Int, 0 ≤ a → a < ny → 0 ≤ b → b < nx → nx * ny ≤ 2147483648 := by
    intro a b ha0 ha hb0 hb
    have hk := row_major_lt nx ny a b ha0 ha hb0 hb
    have h1 : 0 ≤ nx * ny * (P - 1) := mul_nonneg (by omega) (by omega)
    nlinarith
  have h := nested_store_spec ny nx (fun iy ix => int_add (int_mul iy nx) ix)
    (fun iy ix => int_add (int_add (int_mul iy (int_mul nx P)) ix) (int_mul nx r)) data (by
      intro a b a' b' ha0 ha hb0 hb ha0' ha' hb0' hb' e
      simp only [index_eq nx ny a b (hcells a b ha0 ha hb0 hb) ha0 ha hb0 hb,
        index_eq nx ny a' b' (hcells a b ha0 ha hb0 hb) ha0' ha' hb0' hb'] at e
      obtain ⟨rfl, rfl⟩ := row_major_inj nx a b a' b' hb0 hb hb0' hb' e
      rfl)
  constructor
  · intro iy ix hy0 hy hx0 hx
    have hv := h.1 iy ix hy0 hy hx0 hx
    simp only [index_eq nx ny iy ix (hcells iy ix hy0 hy hx0 hx) hy0 hy hx0 hx] at hv
    have hg := global_index_lt nx ny P r iy ix h0 hr hy0 hy hx0 hx
    rw [fill_value_eq, to_int_of_range _ (by omega) (by omega)] at hv
    exact hv
  · intro k hk
    refine h.2 k ?_
    intro a b ha0 ha hb0 hb e
    simp only [index_eq nx ny a b (hcells a b ha0 ha hb0 hb) ha0 ha hb0 hb] at e
    exact hk (e ▸ row_major_lt nx ny a b ha0 ha hb0 hb)

theorem foldl_and_eq_all {ι : Type} (l : List ι) (g : ι → Bool) (s : Bool) :
    l.foldl (fun s i => s && g i) s = (s && l.all g) := by
  induction l generalizing s with
  | nil => simp
  | cons i l ih => simp [List.foldl_cons, ih, Bool.and_assoc]

/-- What `check_data` compares: the elements at the offsets the code computes. -/
theorem check_data_pairs (data1 data2 : Int → Int) (nx ny : Int) :
    check_data data1 data2 nx ny = true ↔
      ∀ a b : Int, 0 ≤ a → a < ny → 0 ≤ b → b < nx →
        data1 (int_add (int_mul a nx) b) = data2 (int_add (int_mul a nx) b) := by
  unfold check_data
  rw [nested_loop_eq_foldl ny nx
    (fun iy ix status => status &&
      decide (data1 (int_add (int_mul iy nx) ix) = data2 (int_add (int_mul iy nx) ix))) true,
    foldl_and_eq_all]
  simp only [Bool.true_and, List.all_eq_true, decide_eq_true_eq]
  constructor
  · intro h a b ha0 ha hb0 hb
    exact h (a, b) ((mem_index_pairs ny nx a b).2 ⟨⟨ha0, ha⟩, ⟨hb0, hb⟩⟩)
  · rintro h ⟨a, b⟩ hab
    obtain ⟨⟨ha0, ha⟩, ⟨hb0, hb⟩⟩ := (mem_index_pairs ny nx a b).1 hab
    exact h a b ha0 ha hb0 hb

theorem check_data_iff (data1 data2 : Int → Int) (nx ny : Int) (hnx : 0 ≤ nx)
    (hfit : nx * ny ≤ 2147483648) :
    check_data data1 data2 nx ny = true ↔
      ∀ k : Int, 0 ≤ k → k < nx * ny → data1 k = data2 k := by
  rw [check_data_pairs]
  constructor
  · intro h k hk0 hk
    obtain ⟨a, b, ⟨ha0, ha⟩, ⟨hb0, hb⟩, rfl⟩ := row_major_surj nx ny k hk0 hk hnx
    have := h a b ha0 ha hb0 hb
    rwa [index_eq nx ny a b hfit ha0 ha hb0 hb] at this
  · intro h a b ha0 ha hb0 hb
    rw [index_eq nx ny a b hfit ha0 ha hb0 hb]
    have hk := row_major_lt nx ny a b ha0 ha hb0 hb
    exact h _ hk.1 hk.2

/-- C9 fails as stated: with `nx = ny = 2` on rank 0 of `P = 2^30` processes, the cell
`(1, 0)` should hold `row * columns_total + col = 1 * 2^31 + 0`, which no `int` holds; the
code stores `-2147483648` in `data[1*2 + 0]`. -/
theorem C9_fill_value_overflows :
    ((1 : Int) ≤ 1073741824 ∧ (0 : Int) ≤ 0 ∧ (0 : Int) < 1073741824) ∧
    fill_data (fun _ => 0) 2 2 0 1073741824 (1 * 2 + 0) = -2147483648 ∧
    fill_data (fun _ => 0) 2 2 0 1073741824 (1 * 2 + 0) ≠ 1 * (2 * 1073741824) + (2 * 0 + 0) := by
  decide

/-- C9 as amended: on rank `r` of `P`, when the global array has at most `2^31` elements
(`nx*ny*P <= 2^31`, so that every global row-major index fits in `int`), after
`fill_data(data, nx, ny)` the element `data[iy*nx + ix]` of every local cell `(iy, ix)`
holds `row * columns_total + col` with `row = iy`, `col = nx*r + ix` (a column of the
global array, `0 <= col < columns_total`) and `columns_total = nx*P`; no element outside
`[0, nx*ny)` is written. -/
theorem C9_fill_data_values (P r nx ny : Int) (hP : 1 ≤ P) (h0 : 0 ≤ r) (hr : r < P)
    (hnx : 0 ≤ nx) (_hny : 0 ≤ ny) (hfit : nx * ny * P ≤ 2147483648) (data : Int → Int) :
    (∀ iy ix : Int, 0 ≤ iy → iy < ny → 0 ≤ ix → ix < nx →
      fill_data data nx ny r P (iy * nx + ix) = iy * (nx * P) + (nx * r + ix) ∧
      (0 ≤ nx * r + ix ∧ nx * r + ix < nx * P)) ∧
    (∀ k : Int, ¬ (0 ≤ k ∧ k < nx * ny) → fill_data data nx ny r P k = data k) := by
  have h := fill_data_spec data nx ny r P hP h0 hr hfit
  refine ⟨fun iy ix hy0 hy hx0 hx => ⟨?_, ?_, ?_⟩, h.2⟩
  · rw [h.1 iy ix hy0 hy hx0 hx]; ring
  · have : 0 ≤ nx * r := mul_nonneg hnx h0
    omega
  · have : 0 ≤ nx * (P - r - 1) := mul_nonneg hnx (by omega)
    nlinarith

/-- Witness of the amended C9 with 2 participants and `nx = ny = 4`: rank 0 holds
`row*8 + col` for the columns `[0,4)`, rank 1 for the columns `[4,8)` (here row 2, local
column 3). -/
theorem C9_fill_data_values_witness :
    (fill_data (fun _ => 0) 4 4 0 2 (2 * 4 + 3) = 2 * (4 * 2) + (4 * 0 + 3) ∧
      (0 ≤ (4 : Int) * 0 + 3 ∧ (4 : Int) * 0 + 3 < 4 * 2)) ∧
    (fill_data (fun _ => 0) 4 4 1 2 (2 * 4 + 3) = 2 * (4 * 2) + (4 * 1 + 3) ∧
      (0 ≤ (4 : Int) * 1 + 3 ∧ (4 : Int) * 1 + 3 < 4 * 2)) :=
  ⟨(C9_fill_data_values 2 0 4 4 (by decide) (by decide) (by decide) (by decide) (by decide)
      (by decide) (fun _ => 0)).1 2 3 (by decide) (by decide) (by decide) (by decide),
   (C9_fill_data_values 2 1 4 4 (by decide) (by decide) (by decide) (by decide) (by decide)
      (by decide) (fun _ => 0)).1 2 3 (by decide) (by decide) (by decide) (by decide)⟩

/-- C10 fails as stated: with `nx = ny = 46341` (`nx*ny = 2147488281 > 2^31 - 1`) the
offset `iy*nx + ix` does not fit in `int` for the last cells, so the code never reads
offset `2^31`: two buffers that differ there, and only there, inside `[0, nx*ny)`, are
reported equal. -/
theorem C10_index_overflows :
    ((0 : Int) ≤ 46341 ∧ (0 : Int) ≤ 2147483648 ∧ (2147483648 : Int) < 46341 * 46341) ∧
    (fun _ => 0 : Int → Int) 2147483648 ≠
      (fun k => if k = 2147483648 then 1 else 0 : Int → Int) 2147483648 ∧
    check_data (fun _ => 0) (fun k => if k = 2147483648 then 1 else 0) 46341 46341 = true := by
  refine ⟨by decide, by decide, ?_⟩
  rw [check_data_pairs]
  intro a b _ _ _ _
  have h := to_int_range (int_mul a 46341 + b)
  have hne : int_add (int_mul a 46341) b ≠ 2147483648 := by
    unfold int_add
    omega
  simp only [hne, if_false]

/-- C10 as amended: for `nx, ny >= 0` with `nx*ny <= 2^31` (every offset `iy*nx + ix` of
the range fits in `int`), `check_data(data1, data2, nx, ny)` returns true exactly when
the two buffers agree on every offset of `[0, nx*ny)`; it returns true when `nx*ny = 0`
and when both arguments are the same buffer, and one differing element anywhere in the
range makes it return false. -/
theorem C10_check_data_elementwise (nx ny : Int) (hnx : 0 ≤ nx) (_hny : 0 ≤ ny)
    (hfit : nx * ny ≤ 2147483648) (data1 data2 : Int → Int) :
    (check_data data1 data2 nx ny = true ↔
      ∀ k : Int, 0 ≤ k → k < nx * ny → data1 k = data2 k) ∧
    (nx * ny = 0 → check_data data1 data2 nx ny = true) ∧
    check_data data1 data1 nx ny = true ∧
    (∀ k : Int, 0 ≤ k → k < nx * ny → data1 k ≠ data2 k →
      check_data data1 data2 nx ny = false) := by
  have h := check_data_iff data1 data2 nx ny hnx hfit
  refine ⟨h, ?_, ?_, ?_⟩
  · intro hz
    rw [h, hz]
    intro k hk0 hk
    omega
  · exact (check_data_iff data1 data1 nx ny hnx hfit).2 (fun _ _ _ => rfl)
  · intro k hk0 hk hne
    cases hc : check_data data1 data2 nx ny with
    | false => rfl
    | true => exact absurd (h.1 hc k hk0 hk) hne

/-- Witness of the amended C10 on 2 x 2 buffers that differ in the last element only. -/
theorem C10_check_data_elementwise_witness :
    check_data (fun k => k) (fun k => if k = 3 then 0 else k) 2 2 = false :=
  (C10_check_data_elementwise 2 2 (by decide) (by decide) (by decide) (fun k => k)
    (fun k => if k = 3 then 0 else k)).2.2.2 3 (by decide) (by decide) (by decide)

/-- The shapes `main` computes when the products it forms fit in `int`. -/
theorem main_shapes_eq (nx ny r P : Int) (hnx : 0 ≤ nx) (hny : 0 ≤ ny)
    (hnymax : ny ≤ 2147483647) (h0 : 0 ≤ r) (hr : r < P) (hfit : nx * P ≤ 2147483647) :
    main_shapes nx ny r P =
      { ldims := (ny, nx), gdims := (ny, nx * P), loffset := (0, 0), goffset := (0, nx * r) } := by
  have h1 : 0 ≤ nx * r := mul_nonneg hnx h0
  have h2 : 0 ≤ nx * (P - r - 1) := mul_nonneg hnx (by omega)
  have h3 : nx * r + nx ≤ nx * P := by nlinarith
  unfold main_shapes int_mul
  rw [to_int_of_range (nx * P) (by omega) (by omega),
    to_int_of_range (nx * r) (by omega) (by omega),
    to_hsize_of_range ny hny hnymax, to_hsize_of_range nx hnx (by omega),
    to_hsize_of_range (nx * P) (by omega) hfit, to_hsize_of_range (nx * r) h1 (by omega)]

/-- A column of the global array lies in the block of exactly one rank. -/
theorem column_owner (P nx col : Int) (hnx : 1 ≤ nx) (hc0 : 0 ≤ col) (hc : col < nx * P) :
    ∃! r : Int, (0 ≤ r ∧ r < P) ∧ (nx * r ≤ col ∧ col < nx * r + nx) := by
  have hpos : 0 < nx := by omega
  refine ⟨col / nx, ⟨⟨Int.ediv_nonneg hc0 (by omega), ?_⟩, ?_, ?_⟩, ?_⟩
  · exact Int.ediv_lt_of_lt_mul hpos (by rw [mul_comm] at hc; exact hc)
  · exact Int.mul_ediv_self_le (by omega)
  · exact Int.lt_mul_ediv_self_add hpos
  · rintro q ⟨_, hq1, hq2⟩
    have h1 := Int.mul_ediv_self_le (x := col) (k := nx) (by omega)
    have h2 := Int.lt_mul_ediv_self_add (x := col) hpos
    have e := row_major_inj nx q (col - nx * q) (col / nx) (col - nx * (col / nx))
      (by omega) (by omega) (by omega) (by omega) (by ring)
    exact e.1

/-- C8 fails as stated: with `nx = 2^20`, `ny = 1` and `P = 4097` the product
`nx * thisrank` of rank `4096` is `2^32`, which no `int` holds; the offset `main` computes
is `(0, 0)`, the block of rank 4096 coincides with the block of rank 0, and the cell
`(0, 0)` lies in both. With `nx = 4` and `P = 2^29` the global width `main` computes is
`2^64 - 2^31`, not `nx * P`. -/
theorem C8_blocks_overlap :
    ((1 : Int) ≤ 4097 ∧ (1 : Int) ≤ 1048576 ∧ (0 : Int) < 1048576 * 4097) ∧
    in_block (main_shapes 1048576 1 0 4097) 0 0 ∧
    in_block (main_shapes 1048576 1 4096 4097) 0 0 ∧
    (¬ ∃! r : Int, (0 ≤ r ∧ r < 4097) ∧ in_block (main_shapes 1048576 1 r 4097) 0 0) ∧
    (main_shapes 4 4 0 536870912).gdims ≠ (4, 4 * 536870912) := by
  refine ⟨by decide, by decide, by decide, ?_, by decide⟩
  rintro ⟨r, _, huniq⟩
  have e0 := huniq 0 ⟨by decide, by decide⟩
  have e1 := huniq 4096 ⟨by decide, by decide⟩
  omega

/-- C8 as amended: when the global width fits in `int` (`nx*P <= 2^31 - 1`; `ny` an
`int`), the shapes `main` computes are the global shape `(ny, nx*P)` and, for rank `r`,
the block of shape `(ny, nx)` at global offset `(0, nx*r)`; for `P >= 1` and
`nx, ny >= 1` every cell of the global array then lies in the block of exactly one rank
of `[0,P)`, and every block lies inside the global shape. -/
theorem C8_blocks_tile_global_array (P nx ny : Int) (_hP : 1 ≤ P) (hnx : 1 ≤ nx)
    (hny : 1 ≤ ny) (hnymax : ny ≤ 2147483647) (hfit : nx * P ≤ 2147483647) :
    (∀ r : Int, 0 ≤ r → r < P →
      (main_shapes nx ny r P).gdims = (ny, nx * P) ∧
      (main_shapes nx ny r P).ldims = (ny, nx) ∧
      (main_shapes nx ny r P).goffset = (0, nx * r)) ∧
    (∀ row col : Int, 0 ≤ row → row < ny → 0 ≤ col → col < nx * P →
      ∃! r : Int, (0 ≤ r ∧ r < P) ∧ in_block (main_shapes nx ny r P) row col) ∧
    (∀ r : Int, 0 ≤ r → r < P → block_inside (main_shapes nx ny r P)) := by
  have hsh := fun r h0 hr =>
    main_shapes_eq nx ny r P (by omega) (by omega) hnymax h0 hr hfit
  refine ⟨fun r h0 hr => by rw [hsh r h0 hr]; exact ⟨rfl, rfl, rfl⟩, ?_, ?_⟩
  · intro row col hr0 hr hc0 hc
    obtain ⟨r, ⟨hrP, h1, h2⟩, huniq⟩ := column_owner P nx col hnx hc0 hc
    refine ⟨r, ⟨hrP, ?_⟩, ?_⟩
    · rw [hsh r hrP.1 hrP.2]
      simp only [in_block]
      omega
    · rintro q ⟨hq, hb⟩
      rw [hsh q hq.1 hq.2] at hb
      simp only [in_block] at hb
      exact huniq q ⟨hq, hb.2.2.1, hb.2.2.2⟩
  · intro r h0 hr
    rw [hsh r h0 hr]
    simp only [block_inside]
    have h1 : 0 ≤ nx * r := mul_nonneg (by omega) h0
    have h2 : 0 ≤ nx * (P - r - 1) := mul_nonneg (by omega) (by omega)
    refine ⟨le_refl _, by omega, h1, by nlinarith⟩

/-- Witness of the amended C8 with 2 participants and `nx = ny = 4`: the cell `(3, 5)` of
the 4 x 8 global array lies in the block of rank 1, and the block of rank 1 is inside the
array. -/
theorem C8_blocks_tile_global_array_witness :
    (∃! r : Int, (0 ≤ r ∧ r < 2) ∧ in_block (main_shapes 4 4 r 2) 3 5) ∧
    block_inside (main_shapes 4 4 1 2) :=
  ⟨(C8_blocks_tile_global_array 2 4 4 (by decide) (by decide) (by decide) (by decide)
      (by decide)).2.1 3 5 (by decide) (by decide) (by decide) (by decide),
   (C8_blocks_tile_global_array 2 4 4 (by decide) (by decide) (by decide) (by decide)
      (by decide)).2.2 1 (by decide) (by decide)⟩

theorem error_check_false_iff (status : Int) (message : String) :
    (error_check status message).1 = false ↔ status < 0 := by
  unfold error_check
  split <;> simp [*]

theorem error_check_true_iff (status : Int) (message : String) :
    (error_check status message).1 = true ↔ 0 ≤ status := by
  unfold error_check
  split <;> simp <;> omega

theorem call_and_check_is_success (c : Check) (fn : H5Fn) (handles : List Int) (returned : Int)
    (message : String) :
    (call_and_check c fn handles returned message).is_success = true ↔
      c.is_success = true ∧ 0 ≤ to_int returned := by
  simp [call_and_check, error_check_true_iff]

theorem call_and_check_calls (c : Check) (fn : H5Fn) (handles : List Int) (returned : Int)
    (message : String) :
    (call_and_check c fn handles returned message).calls = c.calls ++ [⟨fn, handles⟩] := rfl

theorem check_create_file_success (ret : Nat → Int) :
    (check_create_file ret).is_success = true ↔ ∀ i : Nat, i < 5 → 0 ≤ to_int (ret i) := by
  simp only [check_create_file, call_and_check_is_success, Nat.forall_lt_succ_right,
    Nat.not_lt_zero, false_imp_iff, implies_true, true_and]

theorem check_create_dataset_success (ret : Nat → Int) :
    (check_create_dataset ret).is_success = true ↔ ∀ i : Nat, i < 9 → 0 ≤ to_int (ret i) := by
  simp only [check_create_dataset, call_and_check_is_success, Nat.forall_lt_succ_right,
    Nat.not_lt_zero, false_imp_iff, implies_true, true_and]

theorem check_write_dataset_success (ret : Nat → Int) :
    (check_write_dataset ret).is_success = true ↔ ∀ i : Nat, i < 19 → 0 ≤ to_int (ret i) := by
  simp only [check_write_dataset, call_and_check_is_success, Nat.forall_lt_succ_right,
    Nat.not_lt_zero, false_imp_iff, implies_true, true_and]

theorem check_read_dataset_success (ret : Nat → Int) :
    (check_read_dataset ret).is_success = true ↔ ∀ i : Nat, i < 19 → 0 ≤ to_int (ret i) := by
  simp only [check_read_dataset, call_and_check_is_success, Nat.forall_lt_succ_right,
    Nat.not_lt_zero, false_imp_iff, implies_true, true_and]

/-- For returned values in the range of `int`, the converted values are non-negative
exactly when the returned values are. -/
theorem narrowed_nonneg_iff (ret : Nat → Int) (n : Nat)
    (hrange : ∀ i : Nat, i < n → -2147483648 ≤ ret i ∧ ret i ≤ 2147483647) :
    (∀ i : Nat, i < n → 0 ≤ to_int (ret i)) ↔ ∀ i : Nat, i < n → 0 ≤ ret i := by
  constructor
  · intro h i hi
    have := h i hi
    rwa [to_int_of_range _ (hrange i hi).1 (hrange i hi).2] at this
  · intro h i hi
    rw [to_int_of_range _ (hrange i hi).1 (hrange i hi).2]
    exact h i hi

/-- C6 fails as stated: when `H5Pcreate` returns the non-negative handle `2^31` and every
other call returns 0, every returned value is non-negative but `check_create_file`
returns false, because `error_check` receives the handle converted to `int`, `-2^31`;
when `H5Fclose` returns `-2^32`, a negative value, the function returns true. -/
theorem C6_handle_is_narrowed :
    ((∀ i : Nat, i < 5 → 0 ≤ (fun i : Nat => if i = 0 then (2147483648 : Int) else 0) i) ∧
      (check_create_file (fun i => if i = 0 then 2147483648 else 0)).is_success = false) ∧
    ((fun i : Nat => if i = 3 then (-4294967296 : Int) else 0) 3 < 0 ∧
      (check_create_file (fun i => if i = 3 then -4294967296 else 0)).is_success = true) := by
  decide

/-- C6 as amended: each of `check_create_file`, `check_create_dataset`,
`check_write_dataset` and `check_read_dataset` returns true exactly when every value
returned by its library calls is non-negative after the conversion to the `int` parameter
of `error_check`, which for returned values in the range of `int` means exactly when
every returned value is non-negative; each issues the same library calls, each once and in
the same order, whatever values the earlier calls returned (the close calls included);
`error_check(status, msg)` returns false exactly when `status < 0`. -/
theorem C6_status_accumulation (ret : Nat → Int) :
    (((check_create_file ret).is_success = true ↔ ∀ i : Nat, i < 5 → 0 ≤ to_int (ret i)) ∧
      ((∀ i : Nat, i < 5 → -2147483648 ≤ ret i ∧ ret i ≤ 2147483647) →
        ((check_create_file ret).is_success = true ↔ ∀ i : Nat, i < 5 → 0 ≤ ret i)) ∧
      (check_create_file ret).calls.map H5Call.fn =
        [.H5Pcreate, .H5Pset_fapl_mpio, .H5Fcreate, .H5Fclose, .H5Pclose]) ∧
    (((check_create_dataset ret).is_success = true ↔
        ∀ i : Nat, i < 9 → 0 ≤ to_int (ret i)) ∧
      ((∀ i : Nat, i < 9 → -2147483648 ≤ ret i ∧ ret i ≤ 2147483647) →
        ((check_create_dataset ret).is_success = true ↔ ∀ i : Nat, i < 9 → 0 ≤ ret i)) ∧
      (check_create_dataset ret).calls.map H5Call.fn =
        [.H5Pcreate, .H5Pset_fapl_mpio, .H5Fopen, .H5Screate_simple, .H5Dcreate,
         .H5Dclose, .H5Sclose, .H5Fclose, .H5Pclose]) ∧
    (((check_write_dataset ret).is_success = true ↔
        ∀ i : Nat, i < 19 → 0 ≤ to_int (ret i)) ∧
      ((∀ i : Nat, i < 19 → -2147483648 ≤ ret i ∧ ret i ≤ 2147483647) →
        ((check_write_dataset ret).is_success = true ↔ ∀ i : Nat, i < 19 → 0 ≤ ret i)) ∧
      (check_write_dataset ret).calls.map H5Call.fn =
        [.H5Pcreate, .H5Pset_fapl_mpio, .H5Fopen, .H5Dopen, .H5Dget_space,
         .H5Screate_simple, .H5Dget_type, .H5Pcreate, .H5Sselect_hyperslab,
         .H5Sselect_hyperslab, .H5Pset_dxpl_mpio, .H5Dwrite, .H5Pclose, .H5Tclose,
         .H5Sclose, .H5Sclose, .H5Dclose, .H5Fclose, .H5Pclose]) ∧
    (((check_read_dataset ret).is_success = true ↔
        ∀ i : Nat, i < 19 → 0 ≤ to_int (ret i)) ∧
      ((∀ i : Nat, i < 19 → -2147483648 ≤ ret i ∧ ret i ≤ 2147483647) →
        ((check_read_dataset ret).is_success = true ↔ ∀ i : Nat, i < 19 → 0 ≤ ret i)) ∧
      (check_read_dataset ret).calls.map H5Call.fn =
        [.H5Pcreate, .H5Pset_fapl_mpio, .H5Fopen, .H5Dopen, .H5Dget_space,
         .H5Screate_simple, .H5Dget_type, .H5Pcreate, .H5Sselect_hyperslab,
         .H5Sselect_hyperslab, .H5Pset_dxpl_mpio, .H5Dread, .H5Pclose, .H5Tclose,
         .H5Sclose, .H5Sclose, .H5Dclose, .H5Fclose, .H5Pclose]) ∧
    (∀ (status : Int) (message : String),
      (error_check status message).1 = false ↔ status < 0) := by
  refine ⟨⟨check_create_file_success ret,
      fun h => (check_create_file_success ret).trans (narrowed_nonneg_iff ret 5 h), ?_⟩,
    ⟨check_create_dataset_success ret,
      fun h => (check_create_dataset_success ret).trans (narrowed_nonneg_iff ret 9 h), ?_⟩,
    ⟨check_write_dataset_success ret,
      fun h => (check_write_dataset_success ret).trans (narrowed_nonneg_iff ret 19 h), ?_⟩,
    ⟨check_read_dataset_success ret,
      fun h => (check_read_dataset_success ret).trans (narrowed_nonneg_iff ret 19 h), ?_⟩,
    error_check_false_iff⟩
  · simp [check_create_file, call_and_check_calls]
  · simp [check_create_dataset, call_and_check_calls]
  · simp [check_write_dataset, call_and_check_calls]
  · simp [check_read_dataset, call_and_check_calls]

/-- Witness of the amended C6: when the third call of `check_write_dataset` (`H5Fopen`)
returns `-1` and every other call returns 0, all returned values are in the range of
`int`, one is negative, and the function returns false after issuing all 19 calls. -/
theorem C6_status_accumulation_witness :
    (check_write_dataset (fun i => if i = 2 then -1 else 0)).is_success = false ∧
    ((check_write_dataset (fun i => if i = 2 then -1 else 0)).calls.map H5Call.fn).length =
      19 := by
  have h := C6_status_accumulation (fun i => if i = 2 then -1 else 0)
  refine ⟨?_, by rw [h.2.2.1.2.2]; rfl⟩
  cases hs : (check_write_dataset (fun i => if i = 2 then -1 else 0)).is_success with
  | false => rfl
  | true =>
    have := (h.2.2.1.2.1 (by decide)).1 hs 2 (by decide)
    exact absurd this (by decide)

end hellohdf
